import Mathlib

/-!
Shallow embedding of the CHIP-8 instruction execution engine from
src/chip8.rs (struct Chip8 and Chip8::run), together with theorems
checking the specification of the engine against this embedding.

Machine integers are modelled as Nat with explicit reductions:
u8 values are kept below 256 by taking % 256 at each read boundary,
u16 program-counter and index-register arithmetic wraps % 65536, and
the u32 clock accumulator wraps % 4294967296 (release-mode wrapping
semantics). Fixed byte arrays (ram, frame buffer, stack) are modelled
as total functions from Nat; every access the engine performs is
bounds-checked before use exactly where the source checks it.
-/

/-- Fault values returned by Chip8::run, one constructor per distinct
message string in the source. -/
inductive Fault where
  | invalidPC
  | stackUnderflow
  | stackOverflow
  | unsupportedOpcode
  | drawMemory
  | bcdMemory
  | storeMemory
  | loadMemory
  deriving DecidableEq

/-- State of the emulator, mirroring struct Chip8. The frame buffer is
modelled one u32 color per pixel (the source stores the 4 little-endian
bytes of that color, a bijective encoding). The process-global random
generator is modelled as an oracle stream of bytes consumed by Cxkk. -/
structure Chip8 where
  ram : Nat → Nat
  frameBuffer : Nat → Nat
  stack : Nat → Nat
  keyReleased : Fin 16 → Bool
  keyboard : Fin 16 → Bool
  randomSeq : List Nat
  remainingSamples : Option Int
  clockHz : Nat
  clockBuffer : Nat
  backgroundColor : Nat
  foregroundColor : Nat
  isDrawsync : Bool
  programCounter : Nat
  indexRegister : Nat
  stackPointer : Nat
  delayTimer : Nat
  soundTimer : Nat
  generalRegisters : Nat → Nat

/-- Pointwise update of a function-modelled array. -/
def updateFn (f : Nat → Nat) (i v : Nat) : Nat → Nat :=
  fun j => if j = i then v else f j

/-- Read one ram byte (ram cells hold u8 values). -/
def readRam (s : Chip8) (a : Nat) : Nat := s.ram a % 256

/-- Read one general register (registers hold u8 values). -/
def reg (s : Chip8) (i : Nat) : Nat := s.generalRegisters i % 256

/-- Write one general register. -/
def setReg (regs : Nat → Nat) (i v : Nat) : Nat → Nat :=
  fun j => if j = i then v else regs j

/-- Key index used by Ex9E and ExA1: the source masks the register
value with 0xF before indexing the 16-entry keyboard array. -/
def keyIndex (v : Nat) : Fin 16 := ⟨v % 16, Nat.mod_lt v (by norm_num)⟩

/-- The decoded instruction set, one constructor per arm of the nested
opcode match in Chip8::run. -/
inductive Instr where
  | cls
  | ret
  | sys (nnn : Nat)
  | jp (nnn : Nat)
  | call (nnn : Nat)
  | seByte (x kk : Nat)
  | sneByte (x kk : Nat)
  | seReg (x y : Nat)
  | ldByte (x kk : Nat)
  | addByte (x kk : Nat)
  | ldReg (x y : Nat)
  | orReg (x y : Nat)
  | andReg (x y : Nat)
  | xorReg (x y : Nat)
  | addReg (x y : Nat)
  | subReg (x y : Nat)
  | shrReg (x y : Nat)
  | subnReg (x y : Nat)
  | shlReg (x y : Nat)
  | sneReg (x y : Nat)
  | ldI (nnn : Nat)
  | jpV0 (nnn : Nat)
  | rnd (x kk : Nat)
  | drw (x y n : Nat)
  | skp (x : Nat)
  | sknp (x : Nat)
  | getDelay (x : Nat)
  | waitKey (x : Nat)
  | setDelay (x : Nat)
  | setSound (x : Nat)
  | addI (x : Nat)
  | fontAddr (x : Nat)
  | bcd (x : Nat)
  | store (x : Nat)
  | load (x : Nat)
  | unsupported
  deriving DecidableEq

/-- Decode the two fetched opcode bytes, following the nested match on
nibbles in Chip8::run. -/
def decode (b0 b1 : Nat) : Instr :=
  let op0 := b0 / 16
  let x := b0 % 16
  let y := b1 / 16
  let n := b1 % 16
  let kk := b1
  let nnn := (b0 % 16) * 256 + b1
  if op0 = 0x0 then
    if nnn = 0x0E0 then .cls
    else if nnn = 0x0EE then .ret
    else .sys nnn
  else if op0 = 0x1 then .jp nnn
  else if op0 = 0x2 then .call nnn
  else if op0 = 0x3 then .seByte x kk
  else if op0 = 0x4 then .sneByte x kk
  else if op0 = 0x5 then (if n = 0x0 then .seReg x y else .unsupported)
  else if op0 = 0x6 then .ldByte x kk
  else if op0 = 0x7 then .addByte x kk
  else if op0 = 0x8 then
    if n = 0x0 then .ldReg x y
    else if n = 0x1 then .orReg x y
    else if n = 0x2 then .andReg x y
    else if n = 0x3 then .xorReg x y
    else if n = 0x4 then .addReg x y
    else if n = 0x5 then .subReg x y
    else if n = 0x6 then .shrReg x y
    else if n = 0x7 then .subnReg x y
    else if n = 0xE then .shlReg x y
    else .unsupported
  else if op0 = 0x9 then (if n = 0x0 then .sneReg x y else .unsupported)
  else if op0 = 0xA then .ldI nnn
  else if op0 = 0xB then .jpV0 nnn
  else if op0 = 0xC then .rnd x kk
  else if op0 = 0xD then .drw x y n
  else if op0 = 0xE then
    if kk = 0x9E then .skp x
    else if kk = 0xA1 then .sknp x
    else .unsupported
  else if op0 = 0xF then
    if kk = 0x07 then .getDelay x
    else if kk = 0x0A then .waitKey x
    else if kk = 0x15 then .setDelay x
    else if kk = 0x18 then .setSound x
    else if kk = 0x1E then .addI x
    else if kk = 0x29 then .fontAddr x
    else if kk = 0x33 then .bcd x
    else if kk = 0x55 then .store x
    else if kk = 0x65 then .load x
    else .unsupported
  else .unsupported

/-- Result of a single cycle: continue the per-frame loop, break out of
it (the blocking Fx0A with no latch, or a Dxyn with drawsync on), or
return a terminal fault carrying the state at the moment of the fault. -/
inductive Outcome where
  | cont (s : Chip8)
  | halt (s : Chip8)
  | fault (f : Fault) (s : Chip8)

/-- State carried by an outcome. -/
def outcomeState : Outcome → Chip8
  | .cont s => s
  | .halt s => s
  | .fault _ s => s

/-- Fault carried by an outcome, if any. -/
def outcomeFault : Outcome → Option Fault
  | .fault f _ => some f
  | _ => none

/-- Reset of the flags register V15 to 0, the first mutation every Dxyn
performs. -/
def vfReset (s : Chip8) : Chip8 :=
  {s with generalRegisters := setReg s.generalRegisters 15 0}

/-- Sprite bit j (0 = leftmost) of one sprite row byte, as the source
computes it: (row_data >> (7 - j)) & 1. -/
def spriteBit (rowData j : Nat) : Nat := rowData / 2 ^ (7 - j) % 2

/-- XOR-composite one sprite bit onto one frame-buffer cell, following
the four-way match in the Dxyn handler: a cell is lit iff it holds the
foreground color; a lit cell hit by a set bit is cleared and records a
collision in the vf accumulator. -/
def drawPixel (fg bg idx bit : Nat) (fb : Nat → Nat) (vf : Nat) :
    (Nat → Nat) × Nat :=
  if fb idx = fg then
    if bit = 0 then (updateFn fb idx fg, vf)
    else (updateFn fb idx bg, 1)
  else
    if bit = 0 then (updateFn fb idx bg, vf)
    else (updateFn fb idx fg, vf)

/-- Inner column loop of Dxyn: 8 columns starting at column index j,
breaking when x0 + j reaches the screen width 64 (clipping). -/
def drawCols (fg bg x0 rowData rowBase : Nat) :
    Nat → Nat → (Nat → Nat) × Nat → (Nat → Nat) × Nat
  | 0, _, acc => acc
  | fuel + 1, j, acc =>
    if 64 ≤ x0 + j then acc
    else
      drawCols fg bg x0 rowData rowBase fuel (j + 1)
        (drawPixel fg bg (rowBase + (x0 + j)) (spriteBit rowData j) acc.1 acc.2)

/-- Outer row loop of Dxyn: n sprite rows starting at row index i,
breaking when y0 + i reaches the screen height 32 (clipping). -/
def drawRows (fg bg x0 y0 idx : Nat) (ram : Nat → Nat) :
    Nat → Nat → (Nat → Nat) × Nat → (Nat → Nat) × Nat
  | 0, _, acc => acc
  | fuel + 1, i, acc =>
    if 32 ≤ y0 + i then acc
    else
      drawRows fg bg x0 y0 idx ram fuel (i + 1)
        (drawCols fg bg x0 (ram (idx + i) % 256) ((y0 + i) * 64) 8 0 acc)

/-- Execute one decoded instruction on state s. The trailing increment
of the program counter by 2 that the run loop performs after the match
is applied by stepCycle to cont outcomes only, exactly as in the
source, where break skips it. The frame context (cycles, cycle) is the
per-frame budget and the current cycle index, used only by Fx18. The
u16 memory bounds checks of drw, bcd, store and load wrap exactly as
in the source; in the narrow wrap region where the source passes a
check and then panics indexing the 3744-byte ram array (for example a
draw with the index register above 65520), the total-function ram
reads through instead of aborting, so theorems about successful
accesses restrict themselves to the wrap-free domain. -/
def execInstr (cycles cycle : Nat) (s : Chip8) : Instr → Outcome
  | .cls => .cont {s with frameBuffer := fun _ => s.backgroundColor}
  | .ret =>
    if s.stackPointer = 0 then .fault .stackUnderflow s
    else .cont {s with stackPointer := s.stackPointer - 1,
                       programCounter := s.stack (s.stackPointer - 1)}
  | .sys _ => .cont s
  | .jp nnn => .cont {s with programCounter := (nnn + 65534) % 65536}
  | .call nnn =>
    if s.stackPointer = 12 then .fault .stackOverflow s
    else .cont {s with stack := updateFn s.stack s.stackPointer s.programCounter,
                       stackPointer := s.stackPointer + 1,
                       programCounter := (nnn + 65534) % 65536}
  | .seByte x kk =>
    .cont (if reg s x = kk
           then {s with programCounter := (s.programCounter + 2) % 65536} else s)
  | .sneByte x kk =>
    .cont (if reg s x ≠ kk
           then {s with programCounter := (s.programCounter + 2) % 65536} else s)
  | .seReg x y =>
    .cont (if reg s x = reg s y
           then {s with programCounter := (s.programCounter + 2) % 65536} else s)
  | .ldByte x kk => .cont {s with generalRegisters := setReg s.generalRegisters x kk}
  | .addByte x kk =>
    .cont {s with generalRegisters := setReg s.generalRegisters x ((reg s x + kk) % 256)}
  | .ldReg x y =>
    .cont {s with generalRegisters := setReg s.generalRegisters x (reg s y)}
  | .orReg x y =>
    let regs := setReg (setReg s.generalRegisters x (Nat.lor (reg s x) (reg s y))) 15 0
    .cont {s with generalRegisters := regs}
  | .andReg x y =>
    let regs := setReg (setReg s.generalRegisters x (Nat.land (reg s x) (reg s y))) 15 0
    .cont {s with generalRegisters := regs}
  | .xorReg x y =>
    let regs := setReg (setReg s.generalRegisters x (Nat.xor (reg s x) (reg s y))) 15 0
    .cont {s with generalRegisters := regs}
  | .addReg x y =>
    let result := (reg s x + reg s y) % 256
    let overflow := if 255 < reg s x + reg s y then 1 else 0
    .cont {s with generalRegisters := setReg (setReg s.generalRegisters x result) 15 overflow}
  | .subReg x y =>
    let result := (reg s x + 256 - reg s y) % 256
    let flag := if reg s x < reg s y then 0 else 1
    .cont {s with generalRegisters := setReg (setReg s.generalRegisters x result) 15 flag}
  | .shrReg x y =>
    let value := reg s y
    .cont {s with generalRegisters := setReg (setReg s.generalRegisters x (value / 2)) 15 (value % 2)}
  | .subnReg x y =>
    let result := (reg s y + 256 - reg s x) % 256
    let flag := if reg s y < reg s x then 0 else 1
    .cont {s with generalRegisters := setReg (setReg s.generalRegisters x result) 15 flag}
  | .shlReg x y =>
    let value := reg s y
    .cont {s with generalRegisters := setReg (setReg s.generalRegisters x (value * 2 % 256)) 15 (value / 128)}
  | .sneReg x y =>
    .cont (if reg s x ≠ reg s y
           then {s with programCounter := (s.programCounter + 2) % 65536} else s)
  | .ldI nnn => .cont {s with indexRegister := nnn}
  | .jpV0 nnn => .cont {s with programCounter := (nnn + reg s 0 + 65534) % 65536}
  | .rnd x kk =>
    let regs := setReg s.generalRegisters x (Nat.land (s.randomSeq.headD 0 % 256) kk)
    .cont {s with generalRegisters := regs, randomSeq := s.randomSeq.tail}
  | .drw x y n =>
    let s1 := vfReset s
    let x0 := reg s1 x % 64
    let y0 := reg s1 y % 32
    if 3744 ≤ (s.indexRegister + n + 65535) % 65536 then .fault .drawMemory s1
    else
      let p := drawRows s.foregroundColor s.backgroundColor x0 y0
                 s.indexRegister s.ram n 0 (s.frameBuffer, 0)
      let s2 := {s1 with frameBuffer := p.1,
                         generalRegisters := setReg s1.generalRegisters 15 p.2}
      if s.isDrawsync then
        .halt {s2 with programCounter := (s2.programCounter + 2) % 65536}
      else .cont s2
  | .skp x =>
    .cont (if s.keyboard (keyIndex (reg s x))
           then {s with programCounter := (s.programCounter + 2) % 65536} else s)
  | .sknp x =>
    .cont (if ¬ s.keyboard (keyIndex (reg s x))
           then {s with programCounter := (s.programCounter + 2) % 65536} else s)
  | .getDelay x =>
    .cont {s with generalRegisters := setReg s.generalRegisters x s.delayTimer}
  | .waitKey x =>
    match (List.finRange 16).find? (fun i => s.keyReleased i) with
    | some i =>
      .cont {s with keyReleased := fun j => if j = i then false else s.keyReleased j,
                    generalRegisters := setReg s.generalRegisters x i.val}
    | none => .halt s
  | .setDelay x => .cont {s with delayTimer := reg s x}
  | .setSound x =>
    let st := reg s x
    if 1 < st then
      let cyclesBefore := cycles * 60 + s.clockBuffer - s.clockHz
      let elapsed := ((cycle + 1) * 60 - cyclesBefore) * 800 / s.clockHz
      .cont {s with soundTimer := st,
                    remainingSamples := some ((st : Int) * 800 - (elapsed : Int))}
    else .cont {s with soundTimer := st}
  | .addI x =>
    .cont {s with indexRegister := (s.indexRegister + reg s x) % 65536}
  | .fontAddr x => .cont {s with indexRegister := reg s (x % 16) * 5}
  | .bcd x =>
    if s.indexRegister < 0x200 ∨ 3744 ≤ (s.indexRegister + 2) % 65536 then
      .fault .bcdMemory s
    else
      let ram1 := updateFn s.ram s.indexRegister (reg s x / 100)
      let ram2 := updateFn ram1 (s.indexRegister + 1) (reg s x / 10 % 10)
      let ram3 := updateFn ram2 (s.indexRegister + 2) (reg s x % 10)
      .cont {s with ram := ram3}
  | .store x =>
    if s.indexRegister < 0x200 ∨ 3744 ≤ (s.indexRegister + x) % 65536 then
      .fault .storeMemory s
    else
      let ram1 := fun a =>
        if s.indexRegister ≤ a ∧ a ≤ s.indexRegister + x
        then reg s (a - s.indexRegister) else s.ram a
      .cont {s with ram := ram1, indexRegister := (s.indexRegister + x + 1) % 65536}
  | .load x =>
    if 3744 ≤ (s.indexRegister + x) % 65536 then .fault .loadMemory s
    else
      let regs := fun i =>
        if i ≤ x then readRam s (s.indexRegister + i) else s.generalRegisters i
      .cont {s with generalRegisters := regs,
                    indexRegister := (s.indexRegister + x + 1) % 65536}
  | .unsupported => .fault .unsupportedOpcode s

/-- Advance the program counter by 2 after a non-breaking instruction. -/
def incPC (s : Chip8) : Chip8 :=
  {s with programCounter := (s.programCounter + 2) % 65536}

/-- One fetch-decode-execute cycle: program-counter validation, fetch of
the two opcode bytes, decode, dispatch, and the trailing increment of
the program counter for instructions that fall through the match. -/
def stepCycle (cycles cycle : Nat) (s : Chip8) : Outcome :=
  if s.programCounter < 0x200 ∨ 3744 ≤ s.programCounter ∨ s.programCounter % 2 = 1 then
    .fault .invalidPC s
  else
    match execInstr cycles cycle s
        (decode (readRam s s.programCounter) (readRam s (s.programCounter + 1))) with
    | .cont s1 => .cont (incPC s1)
    | .halt s1 => .halt s1
    | .fault f s1 => .fault f s1

/-- The per-frame cycle loop, running up to the budgeted number of
cycles, stopping early on a halt outcome and returning on a fault. The
second argument counts the remaining cycles of the frame. -/
def runLoop (cycles : Nat) : Nat → Chip8 → Option Fault × Chip8
  | 0, s => (none, s)
  | r + 1, s =>
    match stepCycle cycles (cycles - (r + 1)) s with
    | .cont s1 => runLoop cycles r s1
    | .halt s1 => (none, s1)
    | .fault f s1 => (some f, s1)

/-- Start-of-frame timer decrements. -/
def decTimers (s : Chip8) : Chip8 :=
  {s with delayTimer := if 0 < s.delayTimer then s.delayTimer - 1 else s.delayTimer,
          soundTimer := if 0 < s.soundTimer then s.soundTimer - 1 else s.soundTimer}

/-- Frame cycle budget from the fixed-point accumulator: the buffer
gains clock_hz (u32 wrapping add), the budget is buffer / 60 and the
new buffer is buffer % 60. -/
def cycleBudget (clockHz buffer : Nat) : Nat × Nat :=
  ((buffer + clockHz) % 4294967296 / 60, (buffer + clockHz) % 4294967296 % 60)

/-- End-of-frame clearing of all key-release latches. -/
def clearLatches (s : Chip8) : Chip8 :=
  {s with keyReleased := fun _ => false}

/-- One call of Chip8::run, the per-frame entry point: decrement both
timers, compute the cycle budget, run the cycle loop, and on normal
completion clear the release latches (a fault returns immediately and
skips the latch clearing, as in the source). -/
def runFrame (s : Chip8) : Option Fault × Chip8 :=
  let s1 := decTimers s
  let p := cycleBudget s1.clockHz s1.clockBuffer
  let s2 := {s1 with clockBuffer := p.2}
  match runLoop p.1 p.1 s2 with
  | (some f, t) => (some f, t)
  | (none, t) => (none, clearLatches t)

/-- Cycle-budget sequence over consecutive frames starting from a given
buffer value, iterating the accumulator of cycleBudget. -/
def budgets (clockHz : Nat) : Nat → Nat → List Nat
  | 0, _ => []
  | n + 1, buffer =>
    (cycleBudget clockHz buffer).1 :: budgets clockHz n (cycleBudget clockHz buffer).2

/-- Baseline concrete state: freshly initialized machine (all memory and
registers zero, program counter 0x200) with clock 60 Hz, black
background 0 and foreground color 1, drawsync off, empty rom. -/
def zeroState : Chip8 where
  ram := fun _ => 0
  frameBuffer := fun _ => 0
  stack := fun _ => 0
  keyReleased := fun _ => false
  keyboard := fun _ => false
  randomSeq := []
  remainingSamples := none
  clockHz := 60
  clockBuffer := 0
  backgroundColor := 0
  foregroundColor := 1
  isDrawsync := false
  programCounter := 512
  indexRegister := 0
  stackPointer := 0
  delayTimer := 0
  soundTimer := 0
  generalRegisters := fun _ => 0

/-- State whose next instruction is D002 (draw 2 sprite rows) with the
index register at 3743, so the draw faults on its memory check, and
with V15 = 1 beforehand. -/
def c1cexState : Chip8 :=
  {zeroState with indexRegister := 3743,
                  ram := fun a => if a = 512 then 208 else if a = 513 then 2 else 0,
                  generalRegisters := fun i => if i = 15 then 1 else 0}

/-- State with an out-of-range program counter 0x100. -/
def c1wState : Chip8 := {zeroState with programCounter := 256}

/-- State for a draw of the one-row sprite 0xF0 stored at address 0,
positioned at x = V0 = 60, y = V1 = 0 (clipped at the right edge). -/
def c2wState : Chip8 :=
  {zeroState with ram := fun a => if a = 0 then 240 else 0,
                  generalRegisters := fun i => if i = 0 then 60 else 0}

/-- State whose next opcode is 0x0123, a SYS instruction. -/
def c3sysState : Chip8 :=
  {zeroState with ram := fun a => if a = 512 then 1 else if a = 513 then 35 else 0}

/-- State whose next opcode is 0x5001, matching no instruction pattern. -/
def c3unsState : Chip8 :=
  {zeroState with ram := fun a => if a = 512 then 80 else if a = 513 then 1 else 0}

/-- State whose next opcode is F007 (load delay timer into V0) with the
delay timer at 5 and a one-cycle frame budget. -/
def c4State : Chip8 :=
  {zeroState with ram := fun a => if a = 512 then 240 else if a = 513 then 7 else 0,
                  delayTimer := 5}

/-- State with drawsync on, a two-cycle frame budget (120 Hz clock),
opcode D001 at 0x200 and opcode 6105 (load 5 into V1) at 0x202. -/
def c5drawState : Chip8 :=
  {zeroState with clockHz := 120, isDrawsync := true,
                  ram := fun a => if a = 512 then 208 else if a = 513 then 1
                                  else if a = 514 then 97 else if a = 515 then 5 else 0}

/-- State whose next opcode is F00A (blocking key read) with no release
latch set. -/
def c5waitState : Chip8 :=
  {zeroState with ram := fun a => if a = 512 then 240 else if a = 513 then 10 else 0}

/-- State with V2 = 200 and V3 = 100, for the arithmetic flags. -/
def c7wState : Chip8 :=
  {zeroState with generalRegisters := fun i => if i = 2 then 200 else if i = 3 then 100 else 0}

/-- State with V3 = 129, for the shift instructions. -/
def c8wState : Chip8 :=
  {zeroState with generalRegisters := fun i => if i = 3 then 129 else 0}

/-- State about to execute 00EE (return) at 0x300 with return address
0x200 pushed on the stack. -/
def c9retState : Chip8 :=
  {zeroState with programCounter := 768, stackPointer := 1,
                  stack := fun i => if i = 0 then 512 else 0,
                  ram := fun a => if a = 769 then 238 else 0}

/-!
Theorems. The claim theorems are named by claim id; helper lemmas are
shared and carry no claim names.
-/

lemma budgets_sum_aux (hz : Nat) (hbound : hz + 60 ≤ 4294967296) :
    ∀ n b, b < 60 → (budgets hz n b).sum = (b + n * hz) / 60 := by
  intro n
  induction n with
  | zero =>
    intro b hb
    simp only [budgets, List.sum_nil, Nat.zero_mul, Nat.add_zero]
    exact (Nat.div_eq_of_lt hb).symm
  | succ n ih =>
    intro b hb
    have htot : (b + hz) % 4294967296 = b + hz := Nat.mod_eq_of_lt (by omega)
    simp only [budgets, cycleBudget, htot, List.sum_cons]
    rw [ih ((b + hz) % 60) (Nat.mod_lt _ (by norm_num))]
    have hsplit : b + (n + 1) * hz = 60 * ((b + hz) / 60) + ((b + hz) % 60 + n * hz) := by
      have hdm := Nat.div_add_mod (b + hz) 60
      ring_nf
      omega
    rw [hsplit, Nat.mul_add_div (by norm_num)]

/-- C6: with the accumulator starting at 0 and no u32 overflow, the
per-frame cycle budgets over n consecutive frames sum to exactly
n * clock_hz / 60 rounded down, so the long-run rate equals clock_hz. -/
theorem c6_cycle_accumulator_sum (hz n : Nat) (_hpos : 0 < hz)
    (hbound : hz + 60 ≤ 4294967296) :
    (budgets hz n 0).sum = n * hz / 60 := by
  have h := budgets_sum_aux hz hbound n 0 (by norm_num)
  simpa using h

/-- C6 witness: clock_hz = 500 over 3 frames yields budgets summing to
25. -/
theorem c6_witness : 0 < 500 ∧ 500 + 60 ≤ 4294967296 ∧ (budgets 500 3 0).sum = 3 * 500 / 60 :=
  ⟨by norm_num, by norm_num, c6_cycle_accumulator_sum 500 3 (by norm_num) (by norm_num)⟩

/-- C6 counterexample: at clock_hz = 4294967295 the u32 accumulator
wraps on the second frame, so the two budgets sum to 71582788 instead
of the drift-free 143165576, refuting the claim for every positive
clock_hz. -/
theorem c6_counterexample : (budgets 4294967295 2 0).sum ≠ 2 * 4294967295 / 60 := by decide

/-- C7: 8xy4 writes the wrapped sum into Vx and then 1 into VF exactly
on overflow; 8xy5 writes the wrapped difference into Vx and then 1
into VF exactly when there is no borrow; the flag write lands last, so
it overwrites Vx when x = 15. -/
theorem c7_add_sub_flags (c k : Nat) (s : Chip8) (x y : Nat)
    (hvx : s.generalRegisters x < 256) (hvy : s.generalRegisters y < 256) :
    ((outcomeState (execInstr c k s (.addReg x y))).generalRegisters 15 =
       if 255 < s.generalRegisters x + s.generalRegisters y then 1 else 0) ∧
    (x ≠ 15 → (outcomeState (execInstr c k s (.addReg x y))).generalRegisters x =
       (s.generalRegisters x + s.generalRegisters y) % 256) ∧
    (∀ i, i ≠ x → i ≠ 15 →
       (outcomeState (execInstr c k s (.addReg x y))).generalRegisters i =
         s.generalRegisters i) ∧
    ((outcomeState (execInstr c k s (.subReg x y))).generalRegisters 15 =
       if s.generalRegisters x < s.generalRegisters y then 0 else 1) ∧
    (x ≠ 15 → (outcomeState (execInstr c k s (.subReg x y))).generalRegisters x =
       (s.generalRegisters x + 256 - s.generalRegisters y) % 256) ∧
    (∀ i, i ≠ x → i ≠ 15 →
       (outcomeState (execInstr c k s (.subReg x y))).generalRegisters i =
         s.generalRegisters i) := by
  refine ⟨?_, fun hx15 => ?_, fun i hix hi15 => ?_, ?_, fun hx15 => ?_, fun i hix hi15 => ?_⟩ <;>
    simp [execInstr, outcomeState, setReg, reg,
          Nat.mod_eq_of_lt hvx, Nat.mod_eq_of_lt hvy, *]

/-- C7 witness: with V2 = 200 and V3 = 100, 8xy4 on x = 2, y = 3 sets
VF = 1 (carry) and 8xy5 sets VF = 1 (no borrow). -/
theorem c7_witness :
    (outcomeState (execInstr 0 0 c7wState (.addReg 2 3))).generalRegisters 15 = 1 ∧
    (outcomeState (execInstr 0 0 c7wState (.subReg 2 3))).generalRegisters 15 = 1 := by
  have h := c7_add_sub_flags 0 0 c7wState 2 3 (by decide) (by decide)
  exact ⟨h.1, h.2.2.2.1⟩

/-- C8: 8xy6 writes Vy shifted right into Vx and bit 0 of the original
Vy into VF; 8xyE writes Vy shifted left (mod 256) into Vx and bit 7 of
the original Vy into VF; the source of both shifts is Vy. -/
theorem c8_shift_from_vy (c k : Nat) (s : Chip8) (x y : Nat)
    (hvy : s.generalRegisters y < 256) :
    ((outcomeState (execInstr c k s (.shrReg x y))).generalRegisters 15 =
       s.generalRegisters y % 2) ∧
    (x ≠ 15 → (outcomeState (execInstr c k s (.shrReg x y))).generalRegisters x =
       s.generalRegisters y / 2) ∧
    (∀ i, i ≠ x → i ≠ 15 →
       (outcomeState (execInstr c k s (.shrReg x y))).generalRegisters i =
         s.generalRegisters i) ∧
    ((outcomeState (execInstr c k s (.shlReg x y))).generalRegisters 15 =
       s.generalRegisters y / 128) ∧
    (x ≠ 15 → (outcomeState (execInstr c k s (.shlReg x y))).generalRegisters x =
       s.generalRegisters y * 2 % 256) ∧
    (∀ i, i ≠ x → i ≠ 15 →
       (outcomeState (execInstr c k s (.shlReg x y))).generalRegisters i =
         s.generalRegisters i) := by
  refine ⟨?_, fun hx15 => ?_, fun i hix hi15 => ?_, ?_, fun hx15 => ?_, fun i hix hi15 => ?_⟩ <;>
    simp [execInstr, outcomeState, setReg, reg, Nat.mod_eq_of_lt hvy, *]

/-- C8 witness: with V3 = 129 (bits 0 and 7 set), 8xy6 on x = 4, y = 3
gives V4 = 64 and VF = 1, and 8xyE gives V4 = 2 and VF = 1. -/
theorem c8_witness :
    (outcomeState (execInstr 0 0 c8wState (.shrReg 4 3))).generalRegisters 15 = 1 ∧
    (outcomeState (execInstr 0 0 c8wState (.shrReg 4 3))).generalRegisters 4 = 64 ∧
    (outcomeState (execInstr 0 0 c8wState (.shlReg 4 3))).generalRegisters 15 = 1 ∧
    (outcomeState (execInstr 0 0 c8wState (.shlReg 4 3))).generalRegisters 4 = 2 := by
  have h := c8_shift_from_vy 0 0 c8wState 4 3 (by decide)
  exact ⟨h.1, h.2.1 (by decide), h.2.2.2.1, h.2.2.2.2.1 (by decide)⟩

/-- C9: 2nnn faults with a stack fault exactly when the stack pointer
is at the capacity 12, otherwise pushes the current program counter
and increments the stack pointer; 00EE faults exactly when the stack
pointer is 0, otherwise pops; executing 00EE in any later state whose
top of stack still holds the pushed address leaves the program counter
at the instruction after the original call. -/
theorem c9_stack_call_ret (c k : Nat) (s : Chip8) (nnn : Nat) :
    (s.stackPointer = 12 → execInstr c k s (.call nnn) = .fault .stackOverflow s) ∧
    (s.stackPointer < 12 → execInstr c k s (.call nnn) =
       .cont {s with stack := updateFn s.stack s.stackPointer s.programCounter,
                     stackPointer := s.stackPointer + 1,
                     programCounter := (nnn + 65534) % 65536}) ∧
    (s.stackPointer = 0 → execInstr c k s .ret = .fault .stackUnderflow s) ∧
    (0 < s.stackPointer → execInstr c k s .ret =
       .cont {s with stackPointer := s.stackPointer - 1,
                     programCounter := s.stack (s.stackPointer - 1)}) ∧
    (∀ t : Chip8, 0 < t.stackPointer →
       t.stack (t.stackPointer - 1) = s.programCounter →
       ¬(t.programCounter < 512 ∨ 3744 ≤ t.programCounter ∨ t.programCounter % 2 = 1) →
       t.ram t.programCounter % 256 = 0 →
       t.ram (t.programCounter + 1) % 256 = 238 →
       (outcomeState (stepCycle c k t)).programCounter = (s.programCounter + 2) % 65536) := by
  refine ⟨fun h => ?_, fun h => ?_, fun h => ?_, fun h => ?_,
          fun t hsp hstack hpc hb0 hb1 => ?_⟩
  · simp [execInstr, h]
  · have h12 : ¬ s.stackPointer = 12 := by omega
    simp [execInstr, h12]
  · simp [execInstr, h]
  · have h0 : ¬ s.stackPointer = 0 := by omega
    simp [execInstr, h0]
  · have hdec : decode (readRam t t.programCounter) (readRam t (t.programCounter + 1)) = .ret := by
      simp [readRam, hb0, hb1, decode]
    unfold stepCycle
    rw [if_neg hpc, hdec]
    simp only [execInstr]
    rw [if_neg (by omega : ¬ t.stackPointer = 0)]
    simp [outcomeState, incPC, hstack]

/-- C9 witness: a return executed at 0x300 with 0x200 on top of the
stack leaves the program counter at 0x202. -/
theorem c9_witness :
    (outcomeState (stepCycle 0 0 c9retState)).programCounter =
      (zeroState.programCounter + 2) % 65536 :=
  (c9_stack_call_ret 0 0 zeroState 837).2.2.2.2 c9retState (by decide) (by decide)
    (by decide) (by decide) (by decide)

lemma keyIndex_reg (s : Chip8) (x : Nat) :
    keyIndex (reg s x) = keyIndex (s.generalRegisters x) := by
  unfold keyIndex reg
  exact Fin.ext (Nat.mod_mod_of_dvd _ (by norm_num))

/-- C10: the key-skip instructions never fault; their whole effect is a
conditional skip decided by the key numbered by the low 4 bits of Vx,
for every register value. -/
theorem c10_key_skip_masked (c k : Nat) (s : Chip8) (x : Nat) :
    outcomeFault (execInstr c k s (.skp x)) = none ∧
    (outcomeState (execInstr c k s (.skp x))).programCounter =
      (if s.keyboard (keyIndex (s.generalRegisters x)) then (s.programCounter + 2) % 65536
       else s.programCounter) ∧
    outcomeFault (execInstr c k s (.sknp x)) = none ∧
    (outcomeState (execInstr c k s (.sknp x))).programCounter =
      (if s.keyboard (keyIndex (s.generalRegisters x)) then s.programCounter
       else (s.programCounter + 2) % 65536) := by
  rw [← keyIndex_reg]
  by_cases h : s.keyboard (keyIndex (reg s x)) <;>
    simp [execInstr, outcomeState, outcomeFault, h]

lemma execInstr_fault_state (c k : Nat) (s : Chip8) (i : Instr) (f : Fault) (t : Chip8)
    (h : execInstr c k s i = .fault f t) :
    t = s ∨ ((∃ x y n, i = .drw x y n) ∧ f = .drawMemory ∧ t = vfReset s) := by
  cases i
  case ret =>
    simp only [execInstr] at h
    split at h
    · injection h with h1 h2
      exact Or.inl h2.symm
    · exact Outcome.noConfusion h
  case call =>
    simp only [execInstr] at h
    split at h
    · injection h with h1 h2
      exact Or.inl h2.symm
    · exact Outcome.noConfusion h
  case drw x y n =>
    simp only [execInstr] at h
    split at h
    · injection h with h1 h2
      exact Or.inr ⟨⟨x, y, n, rfl⟩, h1.symm, h2.symm⟩
    · split at h <;> exact Outcome.noConfusion h
  case waitKey =>
    simp only [execInstr] at h
    split at h <;> exact Outcome.noConfusion h
  case setSound =>
    simp only [execInstr] at h
    split at h <;> exact Outcome.noConfusion h
  case bcd =>
    simp only [execInstr] at h
    split at h
    · injection h with h1 h2
      exact Or.inl h2.symm
    · exact Outcome.noConfusion h
  case store =>
    simp only [execInstr] at h
    split at h
    · injection h with h1 h2
      exact Or.inl h2.symm
    · exact Outcome.noConfusion h
  case load =>
    simp only [execInstr] at h
    split at h
    · injection h with h1 h2
      exact Or.inl h2.symm
    · exact Outcome.noConfusion h
  case unsupported =>
    simp only [execInstr] at h
    injection h with h1 h2
    exact Or.inl h2.symm
  all_goals simp only [execInstr] at h
  all_goals exact Outcome.noConfusion h

/-- C1 (amended): every fault is terminal with the state it returns
equal to the state before the faulting instruction, with exactly one
exception: when the fetched instruction is a Dxyn and the fault is its
memory fault, the returned state is the prior state with only VF reset
to 0. Every other fault, of every other instruction, commits nothing. -/
theorem c1_fault_atomicity (c k : Nat) (s : Chip8) (f : Fault) (t : Chip8)
    (h : stepCycle c k s = .fault f t) :
    t = s ∨
    ((∃ x y n, decode (readRam s s.programCounter) (readRam s (s.programCounter + 1)) =
        .drw x y n) ∧
      f = .drawMemory ∧ t = vfReset s) := by
  unfold stepCycle at h
  split at h
  · injection h with h1 h2
    exact Or.inl h2.symm
  · split at h
    · exact Outcome.noConfusion h
    · exact Outcome.noConfusion h
    · rename_i f1 s1 heq
      injection h with h1 h2
      rcases execInstr_fault_state c k s _ f1 t (h2 ▸ heq) with h3 | ⟨hi, hf, ht⟩
      · exact Or.inl h3
      · exact Or.inr ⟨hi, h1 ▸ hf, ht⟩

/-- C1 counterexample: a Dxyn that faults on its memory check has
already cleared VF, so the fault does commit a register mutation: with
V15 = 1 beforehand, the returned state has V15 = 0. -/
theorem c1_counterexample :
    outcomeFault (stepCycle 1 0 c1cexState) = some .drawMemory ∧
    c1cexState.generalRegisters 15 = 1 ∧
    (outcomeState (stepCycle 1 0 c1cexState)).generalRegisters 15 = 0 :=
  ⟨by decide, by decide, by decide⟩

/-- C1 witness: the atomicity theorem applied to two concrete faults, a
program-counter fault returning the state unchanged and a Dxyn memory
fault returning the state with only VF reset. -/
theorem c1_witness :
    (stepCycle 1 0 c1wState = .fault .invalidPC c1wState ∧
      (c1wState = c1wState ∨
        ((∃ x y n, decode (readRam c1wState c1wState.programCounter)
            (readRam c1wState (c1wState.programCounter + 1)) = .drw x y n) ∧
          Fault.invalidPC = .drawMemory ∧ c1wState = vfReset c1wState))) ∧
    (stepCycle 1 0 c1cexState = .fault .drawMemory (vfReset c1cexState) ∧
      (vfReset c1cexState = c1cexState ∨
        ((∃ x y n, decode (readRam c1cexState c1cexState.programCounter)
            (readRam c1cexState (c1cexState.programCounter + 1)) = .drw x y n) ∧
          Fault.drawMemory = .drawMemory ∧ vfReset c1cexState = vfReset c1cexState))) :=
  ⟨⟨rfl, c1_fault_atomicity 1 0 c1wState .invalidPC c1wState rfl⟩,
   ⟨rfl, c1_fault_atomicity 1 0 c1cexState .drawMemory (vfReset c1cexState) rfl⟩⟩

/-- C3 (amended): an opcode that decodes to no instruction pattern
halts execution with the unsupported-opcode fault, except that a 0nnn
opcode other than 00E0 and 00EE decodes to SYS, which is ignored: the
state is unchanged and the program counter just advances by 2. -/
theorem c3_unsupported_faults_sys_ignored (c k : Nat) (s : Chip8)
    (hpc : ¬(s.programCounter < 512 ∨ 3744 ≤ s.programCounter ∨ s.programCounter % 2 = 1)) :
    (decode (readRam s s.programCounter) (readRam s (s.programCounter + 1)) = .unsupported →
       stepCycle c k s = .fault .unsupportedOpcode s) ∧
    (∀ nnn, decode (readRam s s.programCounter) (readRam s (s.programCounter + 1)) = .sys nnn →
       stepCycle c k s = .cont (incPC s)) := by
  constructor
  · intro h
    unfold stepCycle
    rw [if_neg hpc, h]
    rfl
  · intro nnn h
    unfold stepCycle
    rw [if_neg hpc, h]
    rfl

/-- C3 counterexample: the SYS opcode 0x0123 matches none of the listed
instruction patterns apart from the SYS escape, yet it does not fault:
the engine skips it and advances the program counter. -/
theorem c3_counterexample :
    outcomeFault (stepCycle 1 0 c3sysState) = none ∧
    (outcomeState (stepCycle 1 0 c3sysState)).programCounter = 514 :=
  ⟨by decide, by decide⟩

/-- C3 witness: opcode 0x5001 faults as unsupported, and opcode 0x0123
is ignored with the program counter advancing. -/
theorem c3_witness :
    stepCycle 1 0 c3unsState = .fault .unsupportedOpcode c3unsState ∧
    stepCycle 1 0 c3sysState = .cont (incPC c3sysState) :=
  ⟨(c3_unsupported_faults_sys_ignored 1 0 c3unsState (by decide)).1 (by decide),
   (c3_unsupported_faults_sys_ignored 1 0 c3sysState (by decide)).2 291 (by decide)⟩

lemma stepCycle_getDelay (c k : Nat) (t : Chip8) (x : Nat) (hx : x < 16)
    (hpc : t.programCounter = 512) (hb0 : t.ram 512 = 240 + x) (hb1 : t.ram 513 = 7) :
    stepCycle c k t =
      .cont (incPC {t with generalRegisters := setReg t.generalRegisters x t.delayTimer}) := by
  have hcond : ¬(t.programCounter < 512 ∨ 3744 ≤ t.programCounter ∨ t.programCounter % 2 = 1) := by
    rw [hpc]; decide
  have hr0 : readRam t t.programCounter = 240 + x := by
    rw [hpc]
    simp only [readRam, hb0]
    exact Nat.mod_eq_of_lt (by omega)
  have hr1 : readRam t (t.programCounter + 1) = 7 := by
    rw [hpc]
    simp [readRam, hb1]
  have hdec : decode (240 + x) 7 = .getDelay x := by
    have h1 : (240 + x) / 16 = 15 := by omega
    have h2 : (240 + x) % 16 = x := by omega
    simp [decode, h1, h2]
  unfold stepCycle
  rw [if_neg hcond, hr0, hr1, hdec]
  rfl

/-- C4 (amended): one call of the frame function decrements both timers
at the start of the frame, before the budgeted cycles execute, so an
Fx07 executed during the frame reads the already-decremented delay
timer value. -/
theorem c4_timers_decrement_first (s : Chip8) (x : Nat) (hx : x < 16)
    (hpc : s.programCounter = 512)
    (hb0 : s.ram 512 = 240 + x) (hb1 : s.ram 513 = 7)
    (hhz : s.clockHz = 60) (hbuf : s.clockBuffer = 0)
    (hd : 0 < s.delayTimer) :
    (runFrame s).1 = none ∧
    (runFrame s).2.delayTimer = s.delayTimer - 1 ∧
    (runFrame s).2.soundTimer = s.soundTimer - 1 ∧
    (runFrame s).2.generalRegisters x = s.delayTimer - 1 := by
  have hstep := stepCycle_getDelay 1 0 {decTimers s with clockBuffer := 0} x hx
    (by simp [decTimers, hpc]) (by simp [decTimers, hb0]) (by simp [decTimers, hb1])
  have hcb : cycleBudget (decTimers s).clockHz (decTimers s).clockBuffer = (1, 0) := by
    simp [decTimers, cycleBudget, hhz, hbuf]
  have hloop : runLoop 1 1 {decTimers s with clockBuffer := 0} = (none, incPC {decTimers s with clockBuffer := 0, generalRegisters := setReg (decTimers s).generalRegisters x (decTimers s).delayTimer}) := by
    have hm : runLoop 1 1 {decTimers s with clockBuffer := 0} =
        (match stepCycle 1 0 {decTimers s with clockBuffer := 0} with
         | .cont s1 => runLoop 1 0 s1
         | .halt s1 => (none, s1)
         | .fault f s1 => (some f, s1)) := rfl
    rw [hm, hstep]
    rfl
  have hframe : runFrame s = (none, clearLatches (incPC {decTimers s with clockBuffer := 0, generalRegisters := setReg (decTimers s).generalRegisters x (decTimers s).delayTimer})) := by
    simp only [runFrame]
    rw [hcb]
    show (match runLoop 1 1 {decTimers s with clockBuffer := 0} with
          | (some f, t) => (some f, t)
          | (none, t) => (none, clearLatches t)) = _
    rw [hloop]
  rw [hframe]
  refine ⟨rfl, ?_, ?_, ?_⟩
  · show (if 0 < s.delayTimer then s.delayTimer - 1 else s.delayTimer) = s.delayTimer - 1
    rw [if_pos hd]
  · show (if 0 < s.soundTimer then s.soundTimer - 1 else s.soundTimer) = s.soundTimer - 1
    split <;> omega
  · show setReg (decTimers s).generalRegisters x (decTimers s).delayTimer x = s.delayTimer - 1
    simp [setReg, decTimers, if_pos hd]

/-- C4 counterexample: with the delay timer at 5, an Fx07 executed in
the same frame loads 4 (the post-decrement value) into V0, not the
pre-decrement 5 the claim predicts. -/
theorem c4_counterexample :
    c4State.delayTimer = 5 ∧
    (runFrame c4State).1 = none ∧
    (runFrame c4State).2.generalRegisters 0 = 4 :=
  ⟨by decide, by decide, by decide⟩

/-- C4 witness: the amended frame semantics evaluated on the concrete
Fx07 state with delay timer 5. -/
theorem c4_witness :
    (runFrame c4State).1 = none ∧
    (runFrame c4State).2.delayTimer = c4State.delayTimer - 1 ∧
    (runFrame c4State).2.soundTimer = c4State.soundTimer - 1 ∧
    (runFrame c4State).2.generalRegisters 0 = c4State.delayTimer - 1 :=
  c4_timers_decrement_first c4State 0 (by decide) (by decide) (by decide) (by decide)
    (by decide) (by decide) (by decide)

lemma execInstr_halt_cases (c k : Nat) (s : Chip8) (i : Instr) (t : Chip8)
    (h : execInstr c k s i = .halt t) :
    ((∃ x, i = .waitKey x) ∧ s.keyReleased = (fun _ => false) ∧
       t.programCounter = s.programCounter) ∨
    ((∃ x y n, i = .drw x y n) ∧ s.isDrawsync = true ∧
       t.programCounter = (s.programCounter + 2) % 65536) := by
  cases i
  case ret =>
    simp only [execInstr] at h
    split at h <;> exact Outcome.noConfusion h
  case call =>
    simp only [execInstr] at h
    split at h <;> exact Outcome.noConfusion h
  case drw x y n =>
    simp only [execInstr] at h
    split at h
    · exact Outcome.noConfusion h
    · split at h
      · rename_i hsync
        injection h with h1
        right
        refine ⟨⟨x, y, n, rfl⟩, hsync, ?_⟩
        rw [← h1]
        simp [vfReset]
      · exact Outcome.noConfusion h
  case waitKey x =>
    simp only [execInstr] at h
    split at h
    · exact Outcome.noConfusion h
    · rename_i hnone
      injection h with h1
      left
      refine ⟨⟨x, rfl⟩, ?_, by rw [← h1]⟩
      funext i
      have hi := List.find?_eq_none.mp hnone i (List.mem_finRange i)
      simpa using hi
  case setSound =>
    simp only [execInstr] at h
    split at h <;> exact Outcome.noConfusion h
  case bcd =>
    simp only [execInstr] at h
    split at h <;> exact Outcome.noConfusion h
  case store =>
    simp only [execInstr] at h
    split at h <;> exact Outcome.noConfusion h
  case load =>
    simp only [execInstr] at h
    split at h <;> exact Outcome.noConfusion h
  all_goals simp only [execInstr] at h
  all_goals exact Outcome.noConfusion h

/-- C5 (amended): apart from a terminal fault, the per-frame cycle loop
ends early only at an Fx0A with no release latch set, which leaves the
program counter unchanged so the instruction is re-attempted next
frame, or, when drawsync is enabled, at a Dxyn, which completes its
draw and advances the program counter before breaking. -/
theorem c5_early_loop_exit_cases (c k : Nat) (s t : Chip8)
    (h : stepCycle c k s = .halt t) :
    ((∃ x, decode (readRam s s.programCounter) (readRam s (s.programCounter + 1)) = .waitKey x) ∧
       s.keyReleased = (fun _ => false) ∧ t.programCounter = s.programCounter) ∨
    ((∃ x y n, decode (readRam s s.programCounter) (readRam s (s.programCounter + 1)) = .drw x y n) ∧
       s.isDrawsync = true ∧ t.programCounter = (s.programCounter + 2) % 65536) := by
  unfold stepCycle at h
  split at h
  · exact Outcome.noConfusion h
  · split at h
    · exact Outcome.noConfusion h
    · rename_i s1 heq
      injection h with h1
      exact execInstr_halt_cases c k s _ t (h1 ▸ heq)
    · exact Outcome.noConfusion h

/-- C5 counterexample: with drawsync enabled and a budget of two
cycles, a Dxyn ends the cycle loop early without any fault and without
any Fx0A: the following instruction 6105 is never executed (V1 stays
0) and the program counter stops after the draw; the same state with
drawsync disabled executes both budgeted cycles. -/
theorem c5_counterexample :
    c5drawState.isDrawsync = true ∧
    (runFrame c5drawState).1 = none ∧
    (runFrame c5drawState).2.programCounter = 514 ∧
    (runFrame c5drawState).2.generalRegisters 1 = 0 ∧
    (runFrame {c5drawState with isDrawsync := false}).1 = none ∧
    (runFrame {c5drawState with isDrawsync := false}).2.programCounter = 516 ∧
    (runFrame {c5drawState with isDrawsync := false}).2.generalRegisters 1 = 5 :=
  ⟨rfl, by decide, by decide, by decide, by decide, by decide, by decide⟩

/-- C5 witness: the blocking key read with no latch set halts the cycle
loop with the program counter unchanged. -/
theorem c5_witness :
    ((∃ x, decode (readRam c5waitState c5waitState.programCounter)
         (readRam c5waitState (c5waitState.programCounter + 1)) = .waitKey x) ∧
       c5waitState.keyReleased = (fun _ => false) ∧
       c5waitState.programCounter = c5waitState.programCounter) ∨
    ((∃ x y n, decode (readRam c5waitState c5waitState.programCounter)
         (readRam c5waitState (c5waitState.programCounter + 1)) = .drw x y n) ∧
       c5waitState.isDrawsync = true ∧
       c5waitState.programCounter = (c5waitState.programCounter + 2) % 65536) :=
  c5_early_loop_exit_cases 1 0 c5waitState c5waitState rfl

lemma drawPixel_fst_ne (fg bg idx bit : Nat) (fb : Nat → Nat) (vf : Nat) (a : Nat)
    (ha : a ≠ idx) : (drawPixel fg bg idx bit fb vf).1 a = fb a := by
  unfold drawPixel
  split_ifs <;> simp [updateFn, ha]

lemma drawPixel_fst_idx (fg bg idx bit : Nat) (fb : Nat → Nat) (vf : Nat)
    (hfg : fg ≠ bg) :
    ((drawPixel fg bg idx bit fb vf).1 idx = fg) ↔ ((fb idx = fg) ↔ bit = 0) := by
  unfold drawPixel
  split_ifs with h1 h2 <;> simp_all [updateFn, Ne.symm hfg]

lemma drawPixel_snd (fg bg idx bit : Nat) (fb : Nat → Nat) (vf : Nat) :
    (drawPixel fg bg idx bit fb vf).2 = if fb idx = fg ∧ ¬ bit = 0 then 1 else vf := by
  unfold drawPixel
  split_ifs <;> simp_all

lemma drawCols_fst_ne (fg bg x0 rowData rowBase : Nat) :
    ∀ fuel j acc a,
      (∀ m, j ≤ m → m < j + fuel → x0 + m < 64 → a ≠ rowBase + (x0 + m)) →
      (drawCols fg bg x0 rowData rowBase fuel j acc).1 a = acc.1 a := by
  intro fuel
  induction fuel with
  | zero => intro j acc a _; rfl
  | succ fuel ih =>
    intro j acc a ha
    simp only [drawCols]
    split
    · rfl
    · rename_i hnb
      rw [ih (j + 1) _ a (fun m hm1 hm2 hm3 => ha m (by omega) (by omega) hm3)]
      exact drawPixel_fst_ne _ _ _ _ _ _ _ (ha j le_rfl (by omega) (by omega))

lemma drawCols_fst_in (fg bg x0 rowData rowBase : Nat) (hfg : fg ≠ bg) :
    ∀ fuel j acc m, j ≤ m → m < j + fuel → x0 + m < 64 →
      ((drawCols fg bg x0 rowData rowBase fuel j acc).1 (rowBase + (x0 + m)) = fg ↔
        (acc.1 (rowBase + (x0 + m)) = fg ↔ spriteBit rowData m = 0)) := by
  intro fuel
  induction fuel with
  | zero => intro j acc m h1 h2 h3; omega
  | succ fuel ih =>
    intro j acc m hjm hm hx
    simp only [drawCols]
    split
    · rename_i hb; omega
    · rename_i hnb
      rcases Nat.eq_or_lt_of_le hjm with heq | hlt
      · subst heq
        rw [drawCols_fst_ne fg bg x0 rowData rowBase fuel (j + 1) _ _
          (fun m' hm1 hm2 hm3 => by omega)]
        exact drawPixel_fst_idx _ _ _ _ _ _ hfg
      · rw [ih (j + 1) _ m hlt (by omega) hx,
            drawPixel_fst_ne _ _ _ _ _ _ _
              (by omega : rowBase + (x0 + m) ≠ rowBase + (x0 + j))]

lemma drawCols_snd_one (fg bg x0 rowData rowBase : Nat) :
    ∀ fuel j acc, acc.2 = 1 → (drawCols fg bg x0 rowData rowBase fuel j acc).2 = 1 := by
  intro fuel
  induction fuel with
  | zero => intro j acc h; exact h
  | succ fuel ih =>
    intro j acc h
    simp only [drawCols]
    split
    · exact h
    · refine ih (j + 1) _ ?_
      rw [drawPixel_snd]
      split <;> simp [h]

lemma drawCols_snd_hit (fg bg x0 rowData rowBase : Nat) :
    ∀ fuel j acc,
      (∃ m, j ≤ m ∧ m < j + fuel ∧ x0 + m < 64 ∧ acc.1 (rowBase + (x0 + m)) = fg ∧
        spriteBit rowData m ≠ 0) →
      (drawCols fg bg x0 rowData rowBase fuel j acc).2 = 1 := by
  intro fuel
  induction fuel with
  | zero =>
    rintro j acc ⟨m, h1, h2, _⟩
    omega
  | succ fuel ih =>
    rintro j acc ⟨m, hjm, hm, hx, hfb, hbit⟩
    simp only [drawCols]
    split
    · rename_i hb; omega
    · rename_i hnb
      rcases Nat.eq_or_lt_of_le hjm with heq | hlt
      · subst heq
        refine drawCols_snd_one _ _ _ _ _ fuel (j + 1) _ ?_
        rw [drawPixel_snd, if_pos ⟨hfb, hbit⟩]
      · refine ih (j + 1) _ ⟨m, hlt, by omega, hx, ?_, hbit⟩
        rw [drawPixel_fst_ne _ _ _ _ _ _ _
          (by omega : rowBase + (x0 + m) ≠ rowBase + (x0 + j))]
        exact hfb

lemma drawCols_snd_miss (fg bg x0 rowData rowBase : Nat) :
    ∀ fuel j acc,
      (∀ m, j ≤ m → m < j + fuel → x0 + m < 64 →
        ¬(acc.1 (rowBase + (x0 + m)) = fg ∧ spriteBit rowData m ≠ 0)) →
      (drawCols fg bg x0 rowData rowBase fuel j acc).2 = acc.2 := by
  intro fuel
  induction fuel with
  | zero => intro j acc _; rfl
  | succ fuel ih =>
    intro j acc hmiss
    simp only [drawCols]
    split
    · rfl
    · rename_i hnb
      rw [ih (j + 1) _ (fun m hm1 hm2 hm3 => by
        rw [drawPixel_fst_ne _ _ _ _ _ _ _
          (by omega : rowBase + (x0 + m) ≠ rowBase + (x0 + j))]
        exact hmiss m (by omega) (by omega) hm3)]
      rw [drawPixel_snd, if_neg (hmiss j le_rfl (by omega) (by omega))]

lemma drawRows_fst_ne (fg bg x0 y0 idx : Nat) (ram : Nat → Nat) :
    ∀ fuel i acc a,
      (∀ m j, i ≤ m → m < i + fuel → y0 + m < 32 → j < 8 → x0 + j < 64 →
        a ≠ (y0 + m) * 64 + (x0 + j)) →
      (drawRows fg bg x0 y0 idx ram fuel i acc).1 a = acc.1 a := by
  intro fuel
  induction fuel with
  | zero => intro i acc a _; rfl
  | succ fuel ih =>
    intro i acc a ha
    simp only [drawRows]
    split
    · rfl
    · rename_i hnb
      rw [ih (i + 1) _ a (fun m j hm1 hm2 hm3 hj hx => ha m j (by omega) (by omega) hm3 hj hx)]
      exact drawCols_fst_ne fg bg x0 _ _ 8 0 acc a
        (fun m hm1 hm2 hm3 => ha i m le_rfl (by omega) (by omega) (by omega) hm3)

lemma drawRows_fst_in (fg bg x0 y0 idx : Nat) (ram : Nat → Nat) (hfg : fg ≠ bg) :
    ∀ fuel i acc m j, i ≤ m → m < i + fuel → y0 + m < 32 → j < 8 → x0 + j < 64 →
      ((drawRows fg bg x0 y0 idx ram fuel i acc).1 ((y0 + m) * 64 + (x0 + j)) = fg ↔
        (acc.1 ((y0 + m) * 64 + (x0 + j)) = fg ↔ spriteBit (ram (idx + m) % 256) j = 0)) := by
  intro fuel
  induction fuel with
  | zero => intro i acc m j h1 h2; omega
  | succ fuel ih =>
    intro i acc m j him hm hym hj hx
    simp only [drawRows]
    split
    · rename_i hb; omega
    · rename_i hnb
      rcases Nat.eq_or_lt_of_le him with heq | hlt
      · subst heq
        rw [drawRows_fst_ne fg bg x0 y0 idx ram fuel (i + 1) _ _
          (fun m' j' hm1 hm2 hm3 hj' hx' => by omega)]
        exact drawCols_fst_in fg bg x0 (ram (idx + i) % 256) ((y0 + i) * 64) hfg 8 0 acc j
          (Nat.zero_le j) (by omega) hx
      · rw [ih (i + 1) _ m j hlt (by omega) hym hj hx,
            drawCols_fst_ne fg bg x0 _ _ 8 0 acc _
              (fun m' hm1 hm2 hm3 => by omega)]

lemma drawRows_snd_one (fg bg x0 y0 idx : Nat) (ram : Nat → Nat) :
    ∀ fuel i acc, acc.2 = 1 → (drawRows fg bg x0 y0 idx ram fuel i acc).2 = 1 := by
  intro fuel
  induction fuel with
  | zero => intro i acc h; exact h
  | succ fuel ih =>
    intro i acc h
    simp only [drawRows]
    split
    · exact h
    · exact ih (i + 1) _ (drawCols_snd_one fg bg x0 _ _ 8 0 acc h)

lemma drawRows_snd_hit (fg bg x0 y0 idx : Nat) (ram : Nat → Nat) :
    ∀ fuel i acc,
      (∃ m j, i ≤ m ∧ m < i + fuel ∧ y0 + m < 32 ∧ j < 8 ∧ x0 + j < 64 ∧
        acc.1 ((y0 + m) * 64 + (x0 + j)) = fg ∧ spriteBit (ram (idx + m) % 256) j ≠ 0) →
      (drawRows fg bg x0 y0 idx ram fuel i acc).2 = 1 := by
  intro fuel
  induction fuel with
  | zero =>
    rintro i acc ⟨m, j, h1, h2, _⟩
    omega
  | succ fuel ih =>
    rintro i acc ⟨m, j, him, hm, hym, hj, hx, hfb, hbit⟩
    simp only [drawRows]
    split
    · rename_i hb; omega
    · rename_i hnb
      rcases Nat.eq_or_lt_of_le him with heq | hlt
      · subst heq
        exact drawRows_snd_one fg bg x0 y0 idx ram fuel (i + 1) _
          (drawCols_snd_hit fg bg x0 _ _ 8 0 acc ⟨j, Nat.zero_le j, by omega, hx, hfb, hbit⟩)
      · refine ih (i + 1) _ ⟨m, j, hlt, by omega, hym, hj, hx, ?_, hbit⟩
        rw [drawCols_fst_ne fg bg x0 _ _ 8 0 acc _ (fun m' hm1 hm2 hm3 => by omega)]
        exact hfb

lemma drawRows_snd_miss (fg bg x0 y0 idx : Nat) (ram : Nat → Nat) :
    ∀ fuel i acc,
      (∀ m j, i ≤ m → m < i + fuel → y0 + m < 32 → j < 8 → x0 + j < 64 →
        ¬(acc.1 ((y0 + m) * 64 + (x0 + j)) = fg ∧ spriteBit (ram (idx + m) % 256) j ≠ 0)) →
      (drawRows fg bg x0 y0 idx ram fuel i acc).2 = acc.2 := by
  intro fuel
  induction fuel with
  | zero => intro i acc _; rfl
  | succ fuel ih =>
    intro i acc hmiss
    simp only [drawRows]
    split
    · rfl
    · rename_i hnb
      rw [ih (i + 1) _ (fun m j hm1 hm2 hm3 hj hx => by
        rw [drawCols_fst_ne fg bg x0 _ _ 8 0 acc _ (fun m' h1 h2 h3 => by omega)]
        exact hmiss m j (by omega) (by omega) hm3 hj hx)]
      exact drawCols_snd_miss fg bg x0 _ _ 8 0 acc
        (fun m h1 h2 h3 => hmiss i m le_rfl (by omega) (by omega) (by omega) h3)

/-- C2: a non-faulting Dxyn first resets VF to 0, takes start
coordinates Vx mod 64 and Vy mod 32 read after that reset, then draws
the n sprite rows of 8 bits with clipping: cells outside the clipped
sprite rectangle are untouched, every drawn sprite bit is XORed into
its target cell in the lit-iff-foreground sense, and the final VF is 1
iff some previously lit cell is hit by a set sprite bit (and is 0 or 1
always). Stated for any state whose foreground and background colors
differ, so that lit and cleared are distinguishable, and whose n
sprite bytes starting at the index register lie inside the 3744-byte
ram with no u16 wraparound in the bounds check (0 < I + n ≤ 3744), the
exact region where the source passes its check and every sprite read
is in bounds. -/
theorem c2_draw_semantics (c k : Nat) (s : Chip8) (x y n : Nat)
    (hfg : s.foregroundColor ≠ s.backgroundColor)
    (hm1 : 0 < s.indexRegister + n) (hm2 : s.indexRegister + n ≤ 3744) :
    outcomeFault (execInstr c k s (.drw x y n)) = none ∧
    (∀ a, (∀ i j, i < n → reg (vfReset s) y % 32 + i < 32 → j < 8 →
         reg (vfReset s) x % 64 + j < 64 →
         a ≠ (reg (vfReset s) y % 32 + i) * 64 + (reg (vfReset s) x % 64 + j)) →
       (outcomeState (execInstr c k s (.drw x y n))).frameBuffer a = s.frameBuffer a) ∧
    (∀ i j, i < n → reg (vfReset s) y % 32 + i < 32 → j < 8 →
       reg (vfReset s) x % 64 + j < 64 →
       ((outcomeState (execInstr c k s (.drw x y n))).frameBuffer
           ((reg (vfReset s) y % 32 + i) * 64 + (reg (vfReset s) x % 64 + j)) =
         s.foregroundColor ↔
        (s.frameBuffer ((reg (vfReset s) y % 32 + i) * 64 + (reg (vfReset s) x % 64 + j)) =
           s.foregroundColor ↔ spriteBit (s.ram (s.indexRegister + i) % 256) j = 0))) ∧
    ((outcomeState (execInstr c k s (.drw x y n))).generalRegisters 15 = 1 ↔
       ∃ i j, i < n ∧ reg (vfReset s) y % 32 + i < 32 ∧ j < 8 ∧
         reg (vfReset s) x % 64 + j < 64 ∧
         s.frameBuffer ((reg (vfReset s) y % 32 + i) * 64 + (reg (vfReset s) x % 64 + j)) =
           s.foregroundColor ∧
         spriteBit (s.ram (s.indexRegister + i) % 256) j ≠ 0) ∧
    ((outcomeState (execInstr c k s (.drw x y n))).generalRegisters 15 = 0 ∨
     (outcomeState (execInstr c k s (.drw x y n))).generalRegisters 15 = 1) := by
  have hif : ¬ 3744 ≤ (s.indexRegister + n + 65535) % 65536 := by omega
  have hfault : outcomeFault (execInstr c k s (.drw x y n)) = none := by
    simp only [execInstr]
    rw [if_neg hif]
    cases hs : s.isDrawsync <;> simp [outcomeFault, hs]
  have hfb : (outcomeState (execInstr c k s (.drw x y n))).frameBuffer =
      (drawRows s.foregroundColor s.backgroundColor (reg (vfReset s) x % 64)
        (reg (vfReset s) y % 32) s.indexRegister s.ram n 0 (s.frameBuffer, 0)).1 := by
    simp only [execInstr]
    rw [if_neg hif]
    cases hs : s.isDrawsync <;> simp [outcomeState, hs]
  have hvf : (outcomeState (execInstr c k s (.drw x y n))).generalRegisters 15 =
      (drawRows s.foregroundColor s.backgroundColor (reg (vfReset s) x % 64)
        (reg (vfReset s) y % 32) s.indexRegister s.ram n 0 (s.frameBuffer, 0)).2 := by
    simp only [execInstr]
    rw [if_neg hif]
    cases hs : s.isDrawsync <;> simp [outcomeState, setReg, hs]
  refine ⟨hfault, ?_, ?_, ?_, ?_⟩
  · intro a hout
    rw [hfb]
    exact drawRows_fst_ne _ _ _ _ _ _ n 0 _ a
      (fun m j hm0 hmn hym hj hx => hout m j (by omega) hym hj hx)
  · intro i j hin hym hj hx
    rw [hfb]
    exact drawRows_fst_in _ _ _ _ _ _ hfg n 0 _ i j (Nat.zero_le i) (by omega) hym hj hx
  · rw [hvf]
    constructor
    · intro h1
      by_contra hno
      have hmiss : ∀ m j, 0 ≤ m → m < 0 + n → reg (vfReset s) y % 32 + m < 32 → j < 8 →
          reg (vfReset s) x % 64 + j < 64 →
          ¬(((s.frameBuffer, (0 : Nat)).1
              ((reg (vfReset s) y % 32 + m) * 64 + (reg (vfReset s) x % 64 + j)) =
            s.foregroundColor) ∧ spriteBit (s.ram (s.indexRegister + m) % 256) j ≠ 0) := by
        intro m j hm0 hmn hym hj hx hc
        exact hno ⟨m, j, by omega, hym, hj, hx, hc.1, hc.2⟩
      have hz := drawRows_snd_miss s.foregroundColor s.backgroundColor (reg (vfReset s) x % 64) (reg (vfReset s) y % 32) s.indexRegister s.ram n 0 _ hmiss
      rw [hz] at h1
      simp at h1
    · rintro ⟨i, j, h1, h2, h3, h4, h5, h6⟩
      exact drawRows_snd_hit _ _ _ _ _ _ n 0 _ ⟨i, j, Nat.zero_le i, by omega, h2, h3, h4, h5, h6⟩
  · rw [hvf]
    by_cases hex : ∃ i j, i < n ∧ reg (vfReset s) y % 32 + i < 32 ∧ j < 8 ∧
        reg (vfReset s) x % 64 + j < 64 ∧
        s.frameBuffer ((reg (vfReset s) y % 32 + i) * 64 + (reg (vfReset s) x % 64 + j)) =
          s.foregroundColor ∧
        spriteBit (s.ram (s.indexRegister + i) % 256) j ≠ 0
    · right
      obtain ⟨i, j, h1, h2, h3, h4, h5, h6⟩ := hex
      exact drawRows_snd_hit _ _ _ _ _ _ n 0 _ ⟨i, j, Nat.zero_le i, by omega, h2, h3, h4, h5, h6⟩
    · left
      have hmiss : ∀ m j, 0 ≤ m → m < 0 + n → reg (vfReset s) y % 32 + m < 32 → j < 8 →
          reg (vfReset s) x % 64 + j < 64 →
          ¬(((s.frameBuffer, (0 : Nat)).1
              ((reg (vfReset s) y % 32 + m) * 64 + (reg (vfReset s) x % 64 + j)) =
            s.foregroundColor) ∧ spriteBit (s.ram (s.indexRegister + m) % 256) j ≠ 0) := by
        intro m j hm0 hmn hym hj hx hc
        exact hex ⟨m, j, by omega, hym, hj, hx, hc.1, hc.2⟩
      have hz := drawRows_snd_miss s.foregroundColor s.backgroundColor (reg (vfReset s) x % 64) (reg (vfReset s) y % 32) s.indexRegister s.ram n 0 _ hmiss
      rw [hz]

/-- C2 witness: the draw of sprite 0xF0 at x = 60, y = 0 completes
without fault and leaves a 0-or-1 flag. -/
theorem c2_witness :
    outcomeFault (execInstr 1 0 c2wState (.drw 0 1 1)) = none ∧
    ((outcomeState (execInstr 1 0 c2wState (.drw 0 1 1))).generalRegisters 15 = 0 ∨
     (outcomeState (execInstr 1 0 c2wState (.drw 0 1 1))).generalRegisters 15 = 1) := by
  have h := c2_draw_semantics 1 0 c2wState 0 1 1 (by decide) (by decide) (by decide)
  exact ⟨h.1, h.2.2.2.2⟩
